import Mathlib

/-!
Shallow embedding of the zamia-ai `aiprolog` core (src/aiprolog/pl2rdf.py and
src/aiprolog/runtime.py): the Term↔RDF-literal codec, the query-algebra
builder, the filter-expression builder, the bounded context stack with
harmonic scoring, and the two-phase action buffer.

Python floats are modelled as rationals (ℚ); all values appearing in the
claims are exactly representable, and the divisions used by the scoring
examples (12/2, 12/3) are exact in binary floating point as well.
-/

namespace ZamiaAI

/-- Modelled from the spec: logic terms (zamiaprolog.logic, an external
collaborator of this repository).  Tagged variants: NumberLiteral (float),
StringLiteral, ListLiteral, Predicate (name, args), Variable.  A constant is
a Predicate with empty args. -/
inductive Term where
  | NumberLiteral (f : ℚ)
  | StringLiteral (s : String)
  | ListLiteral (l : List Term)
  | Predicate (name : String) (args : List Term)
  | Variable (name : String)

open Term

mutual

def Term.decEq : (a b : Term) → Decidable (a = b)
  | NumberLiteral x, NumberLiteral y =>
    if h : x = y then isTrue (by rw [h])
    else isFalse (fun he => by cases he; exact h rfl)
  | NumberLiteral _, StringLiteral _ => isFalse nofun
  | NumberLiteral _, ListLiteral _ => isFalse nofun
  | NumberLiteral _, Predicate _ _ => isFalse nofun
  | NumberLiteral _, Variable _ => isFalse nofun
  | StringLiteral _, NumberLiteral _ => isFalse nofun
  | StringLiteral x, StringLiteral y =>
    if h : x = y then isTrue (by rw [h])
    else isFalse (fun he => by cases he; exact h rfl)
  | StringLiteral _, ListLiteral _ => isFalse nofun
  | StringLiteral _, Predicate _ _ => isFalse nofun
  | StringLiteral _, Variable _ => isFalse nofun
  | ListLiteral _, NumberLiteral _ => isFalse nofun
  | ListLiteral _, StringLiteral _ => isFalse nofun
  | ListLiteral x, ListLiteral y =>
    match Term.decEqList x y with
    | isTrue h => isTrue (by rw [h])
    | isFalse h => isFalse (fun he => by cases he; exact h rfl)
  | ListLiteral _, Predicate _ _ => isFalse nofun
  | ListLiteral _, Variable _ => isFalse nofun
  | Predicate _ _, NumberLiteral _ => isFalse nofun
  | Predicate _ _, StringLiteral _ => isFalse nofun
  | Predicate _ _, ListLiteral _ => isFalse nofun
  | Predicate n1 a1, Predicate n2 a2 =>
    if h1 : n1 = n2 then
      match Term.decEqList a1 a2 with
      | isTrue h2 => isTrue (by rw [h1, h2])
      | isFalse h2 => isFalse (fun he => by cases he; exact h2 rfl)
    else isFalse (fun he => by cases he; exact h1 rfl)
  | Predicate _ _, Variable _ => isFalse nofun
  | Variable _, NumberLiteral _ => isFalse nofun
  | Variable _, StringLiteral _ => isFalse nofun
  | Variable _, ListLiteral _ => isFalse nofun
  | Variable _, Predicate _ _ => isFalse nofun
  | Variable x, Variable y =>
    if h : x = y then isTrue (by rw [h])
    else isFalse (fun he => by cases he; exact h rfl)

def Term.decEqList : (a b : List Term) → Decidable (a = b)
  | [], [] => isTrue rfl
  | [], _ :: _ => isFalse nofun
  | _ :: _, [] => isFalse nofun
  | t :: ts, u :: us =>
    match Term.decEq t u, Term.decEqList ts us with
    | isTrue h1, isTrue h2 => isTrue (by rw [h1, h2])
    | isFalse h1, _ => isFalse (fun he => by cases he; exact h1 rfl)
    | _, isFalse h2 => isFalse (fun he => by cases he; exact h2 rfl)

end

instance : DecidableEq Term := Term.decEq

/-- Python values that circulate through the JSON codec: raw numbers,
raw strings, raw lists, and logic terms (produced by the object hook). -/
inductive PyObj where
  | num (q : ℚ)
  | str (s : String)
  | list (l : List PyObj)
  | term (t : Term)

mutual

def PyObj.decEq : (a b : PyObj) → Decidable (a = b)
  | .num x, .num y =>
    if h : x = y then isTrue (by rw [h])
    else isFalse (fun he => by cases he; exact h rfl)
  | .num _, .str _ => isFalse nofun
  | .num _, .list _ => isFalse nofun
  | .num _, .term _ => isFalse nofun
  | .str _, .num _ => isFalse nofun
  | .str x, .str y =>
    if h : x = y then isTrue (by rw [h])
    else isFalse (fun he => by cases he; exact h rfl)
  | .str _, .list _ => isFalse nofun
  | .str _, .term _ => isFalse nofun
  | .list _, .num _ => isFalse nofun
  | .list _, .str _ => isFalse nofun
  | .list x, .list y =>
    match PyObj.decEqList x y with
    | isTrue h => isTrue (by rw [h])
    | isFalse h => isFalse (fun he => by cases he; exact h rfl)
  | .list _, .term _ => isFalse nofun
  | .term _, .num _ => isFalse nofun
  | .term _, .str _ => isFalse nofun
  | .term _, .list _ => isFalse nofun
  | .term x, .term y =>
    if h : x = y then isTrue (by rw [h])
    else isFalse (fun he => by cases he; exact h rfl)

def PyObj.decEqList : (a b : List PyObj) → Decidable (a = b)
  | [], [] => isTrue rfl
  | [], _ :: _ => isFalse nofun
  | _ :: _, [] => isFalse nofun
  | t :: ts, u :: us =>
    match PyObj.decEq t u, PyObj.decEqList ts us with
    | isTrue h1, isTrue h2 => isTrue (by rw [h1, h2])
    | isFalse h1, _ => isFalse (fun he => by cases he; exact h1 rfl)
    | _, isFalse h2 => isFalse (fun he => by cases he; exact h2 rfl)

end

instance : DecidableEq PyObj := PyObj.decEq

/-- JSON values, modelled structurally: a serialized JSON text is represented
by its parse tree (Python's json module round-trips this representation). -/
inductive Json where
  | num (q : ℚ)
  | str (s : String)
  | arr (l : List Json)
  | obj (fields : List (String × Json))

mutual

def Json.decEq : (a b : Json) → Decidable (a = b)
  | .num x, .num y =>
    if h : x = y then isTrue (by rw [h])
    else isFalse (fun he => by cases he; exact h rfl)
  | .num _, .str _ => isFalse nofun
  | .num _, .arr _ => isFalse nofun
  | .num _, .obj _ => isFalse nofun
  | .str _, .num _ => isFalse nofun
  | .str x, .str y =>
    if h : x = y then isTrue (by rw [h])
    else isFalse (fun he => by cases he; exact h rfl)
  | .str _, .arr _ => isFalse nofun
  | .str _, .obj _ => isFalse nofun
  | .arr _, .num _ => isFalse nofun
  | .arr _, .str _ => isFalse nofun
  | .arr x, .arr y =>
    match Json.decEqList x y with
    | isTrue h => isTrue (by rw [h])
    | isFalse h => isFalse (fun he => by cases he; exact h rfl)
  | .arr _, .obj _ => isFalse nofun
  | .obj _, .num _ => isFalse nofun
  | .obj _, .str _ => isFalse nofun
  | .obj _, .arr _ => isFalse nofun
  | .obj x, .obj y =>
    match Json.decEqFields x y with
    | isTrue h => isTrue (by rw [h])
    | isFalse h => isFalse (fun he => by cases he; exact h rfl)

def Json.decEqList : (a b : List Json) → Decidable (a = b)
  | [], [] => isTrue rfl
  | [], _ :: _ => isFalse nofun
  | _ :: _, [] => isFalse nofun
  | t :: ts, u :: us =>
    match Json.decEq t u, Json.decEqList ts us with
    | isTrue h1, isTrue h2 => isTrue (by rw [h1, h2])
    | isFalse h1, _ => isFalse (fun he => by cases he; exact h1 rfl)
    | _, isFalse h2 => isFalse (fun he => by cases he; exact h2 rfl)

def Json.decEqFields : (a b : List (String × Json)) → Decidable (a = b)
  | [], [] => isTrue rfl
  | [], _ :: _ => isFalse nofun
  | _ :: _, [] => isFalse nofun
  | (k1, v1) :: r1, (k2, v2) :: r2 =>
    if h1 : k1 = k2 then
      match Json.decEq v1 v2, Json.decEqFields r1 r2 with
      | isTrue h2, isTrue h3 => isTrue (by rw [h1, h2, h3])
      | isFalse h2, _ => isFalse (fun he => by cases he; exact h2 rfl)
      | _, isFalse h3 => isFalse (fun he => by cases he; exact h3 rfl)
    else isFalse (fun he => by cases he; exact h1 rfl)

end

instance : DecidableEq Json := Json.decEq

/-- Exceptions raised by the embedded code (PrologError, PrologRuntimeError
from zamiaprolog.errors, plus Python's own TypeError / KeyError / ValueError /
AttributeError / IndexError). -/
inductive PlErr where
  | prologError (msg : String)
  | prologRuntimeError (msg : String)
  | typeError
  | keyError (k : String)
  | valueError
  | attributeError
  | indexError
deriving DecidableEq

instance exceptDecEq {ε α : Type} [DecidableEq ε] [DecidableEq α] :
    DecidableEq (Except ε α) := fun a b =>
  match a, b with
  | .ok x, .ok y =>
    if h : x = y then isTrue (by rw [h])
    else isFalse (fun he => by cases he; exact h rfl)
  | .ok _, .error _ => isFalse nofun
  | .error _, .ok _ => isFalse nofun
  | .error x, .error y =>
    if h : x = y then isTrue (by rw [h])
    else isFalse (fun he => by cases he; exact h rfl)

/-! ## The Term ↔ RDF literal codec (src/aiprolog/pl2rdf.py) -/

/-- A calendar time as produced by dateutil.parser.parse: whole-second
fields plus a fractional sub-second part. -/
structure DateTimeV where
  year : ℤ
  month : ℤ
  day : ℤ
  hour : ℤ
  minute : ℤ
  second : ℤ
  micro : ℚ
deriving DecidableEq

/-- datetime.timetuple(): the whole-second fields; microseconds are dropped. -/
def timetuple (d : DateTimeV) : ℤ × ℤ × ℤ × ℤ × ℤ × ℤ :=
  (d.year, d.month, d.day, d.hour, d.minute, d.second)

/-- Days since 1970-01-01 of a Gregorian civil date (Hinnant's formula). -/
def daysFromCivil (y m d : ℤ) : ℤ :=
  let y2 := if m ≤ 2 then y - 1 else y
  let era := (if 0 ≤ y2 then y2 else y2 - 399) / 400
  let yoe := y2 - era * 400
  let doy := (153 * (m + (if 2 < m then -3 else 9)) + 2) / 5 + d - 1
  let doe := yoe * 365 + yoe / 4 - yoe / 100 + doy
  era * 146097 + doe - 719468

/-- Modelled from the spec: Python time.mktime of a time tuple — epoch seconds
of a whole-second calendar time, naive local calendar (the local timezone
offset is fixed to 0 in the model; only whole-second integrality matters to
the claims). -/
def mktime (tt : ℤ × ℤ × ℤ × ℤ × ℤ × ℤ) : ℤ :=
  let (y, mo, d, h, mi, s) := tt
  ((daysFromCivil y mo d * 24 + h) * 60 + mi) * 60 + s

/-- Semantic payload standing for the lexical form of an RDF literal.  The
lexical text of a number or a serialized JSON value is represented by the
value it parses to (Python's str/float and json dumps/loads round-trip
these); `plain` is text that parses neither as a float nor as a date. -/
inductive LitVal where
  | numStr (q : ℚ)
  | plain (s : String)
  | jsonStr (j : Json)
  | dtStr (d : DateTimeV)
deriving DecidableEq

/-- An rdflib node: a URI reference or a literal with an optional datatype. -/
inductive RDFNode where
  | uriRef (uri : String)
  | literal (value : LitVal) (datatype : Option String)
deriving DecidableEq

def dtListTag : String := "http://ai.zamia.org/types/list"
def dtConstantTag : String := "http://ai.zamia.org/types/constant"
def xsdDecimal : String := "http://www.w3.org/2001/XMLSchema#decimal"
def xsdFloat : String := "http://www.w3.org/2001/XMLSchema#float"
def xsdInteger : String := "http://www.w3.org/2001/XMLSchema#integer"
def xsdDateTime : String := "http://www.w3.org/2001/XMLSchema#dateTime"
def xsdDate : String := "http://www.w3.org/2001/XMLSchema#date"

/-- Modelled from the spec: Python str() of a float; the exact textual form
is irrelevant to the claims (floats round-trip through str/float), so the
model prints the rational. -/
def ratStr (q : ℚ) : String := toString q

/-- Python s.startswith(p), over character lists so that proofs evaluate. -/
def pyStartsWith (s p : String) : Bool := p.toList.isPrefixOf s.toList

mutual

/-- Textual form of a JSON value (used only by unicode() on corner branches). -/
def Json.text : Json → String
  | .num q => ratStr q
  | .str s => "\"" ++ s ++ "\""
  | .arr l => "[" ++ Json.textList l ++ "]"
  | .obj f => "\x7b" ++ Json.textFields f ++ "\x7d"

def Json.textList : List Json → String
  | [] => ""
  | [j] => Json.text j
  | j :: rest => Json.text j ++ ", " ++ Json.textList rest

def Json.textFields : List (String × Json) → String
  | [] => ""
  | [(k, v)] => "\"" ++ k ++ "\": " ++ Json.text v
  | (k, v) :: rest => "\"" ++ k ++ "\": " ++ Json.text v ++ ", " ++ Json.textFields rest

end

/-- Lexical form of a literal payload: unicode(l) in the source. -/
def LitVal.lex : LitVal → String
  | .numStr q => ratStr q
  | .plain s => s
  | .jsonStr j => j.text
  | .dtStr d => toString d.year ++ "-" ++ toString d.month ++ "-" ++ toString d.day

/-- The `l.value is None` test on an untyped literal (pl2rdf.py line 107).
Modelled from the spec: rdflib is an external collaborator, and the spec
reads this branch as "untyped literal with empty value → empty List", so the
test holds exactly for an empty lexical form. -/
def litValueIsNone (v : LitVal) : Bool := v.lex == ""

mutual

/-- PrologJSONEncoder.default (pl2rdf.py lines 46-63): logic terms serialize
to discriminator-tagged JSON objects; any other term raises TypeError (via
json.JSONEncoder.default). -/
def termDefault : Term → Except PlErr Json
  | NumberLiteral f => .ok (.obj [("pt", .str "NumberLiteral"), ("f", .num f)])
  | ListLiteral l =>
    match termListToJson l with
    | .ok js => .ok (.obj [("pt", .str "ListLiteral"), ("l", .arr js)])
    | .error e => .error e
  | StringLiteral s => .ok (.obj [("pt", .str "StringLiteral"), ("s", .str s)])
  | Predicate name [] => .ok (.obj [("pt", .str "Constant"), ("name", .str name)])
  | Predicate _ (_ :: _) => .error .typeError
  | Variable _ => .error .typeError

/-- json.dumps serializing the element list of a ListLiteral: every element
is a logic term, hence goes through the encoder's default. -/
def termListToJson : List Term → Except PlErr (List Json)
  | [] => .ok []
  | t :: ts =>
    match termDefault t, termListToJson ts with
    | .ok j, .ok js => .ok (j :: js)
    | .error e, _ => .error e
    | _, .error e => .error e

end

/-- Dictionary lookup (o[k] with KeyError modelled by the caller). -/
def lookupField (fields : List (String × PyObj)) (k : String) : Option PyObj :=
  match fields.find? (fun kv => kv.1 = k) with
  | some kv => some kv.2
  | none => none

/-- The elements of a decoded 'l' field, when they are all logic terms (the
only case reachable from the encoder; raw elements would make the Python
ListLiteral hold non-term objects). -/
def asTerms : List PyObj → Option (List Term)
  | [] => some []
  | .term t :: rest =>
    match asTerms rest with
    | some ts => some (t :: ts)
    | none => none
  | _ => none

/-- _prolog_from_json (pl2rdf.py lines 65-76), the json object_hook: dispatch
on the 'pt' discriminator; a missing key raises KeyError, an unknown tag
raises PrologRuntimeError.  Payload fields of the wrong raw type (unreachable
from the encoder) are modelled as TypeError. -/
def prologFromJson (o : List (String × PyObj)) : Except PlErr PyObj :=
  match lookupField o "pt" with
  | none => .error (.keyError "pt")
  | some (.str "Constant") =>
    match lookupField o "name" with
    | some (.str n) => .ok (.term (Predicate n []))
    | some _ => .error .typeError
    | none => .error (.keyError "name")
  | some (.str "StringLiteral") =>
    match lookupField o "s" with
    | some (.str s) => .ok (.term (StringLiteral s))
    | some _ => .error .typeError
    | none => .error (.keyError "s")
  | some (.str "NumberLiteral") =>
    match lookupField o "f" with
    | some (.num q) => .ok (.term (NumberLiteral q))
    | some _ => .error .typeError
    | none => .error (.keyError "f")
  | some (.str "ListLiteral") =>
    match lookupField o "l" with
    | some (.list l) =>
      match asTerms l with
      | some ts => .ok (.term (ListLiteral ts))
      | none => .error .typeError
    | some _ => .error .typeError
    | none => .error (.keyError "l")
  | some _ => .error (.prologRuntimeError "cannot convert from json")

mutual

/-- json.JSONDecoder(object_hook=_prolog_from_json).decode: parse, then apply
the object hook to every JSON object, bottom-up. -/
def jsonToPy : Json → Except PlErr PyObj
  | .num q => .ok (.num q)
  | .str s => .ok (.str s)
  | .arr l =>
    match jsonListToPy l with
    | .ok objs => .ok (.list objs)
    | .error e => .error e
  | .obj fields =>
    match jsonFieldsToPy fields with
    | .ok fs => prologFromJson fs
    | .error e => .error e

def jsonListToPy : List Json → Except PlErr (List PyObj)
  | [] => .ok []
  | j :: js =>
    match jsonToPy j, jsonListToPy js with
    | .ok o, .ok os => .ok (o :: os)
    | .error e, _ => .error e
    | _, .error e => .error e

def jsonFieldsToPy : List (String × Json) → Except PlErr (List (String × PyObj))
  | [] => .ok []
  | (k, v) :: rest =>
    match jsonToPy v, jsonFieldsToPy rest with
    | .ok o, .ok os => .ok ((k, o) :: os)
    | .error e, _ => .error e
    | _, .error e => .error e

end

/-- pl_literal_to_rdf (pl2rdf.py lines 117-142).  `kb` models the store
collaborator's resolve_aliases_prefixes (name → canonical identifier). -/
def plLiteralToRdf (kb : String → String) : Term → Except PlErr RDFNode
  | NumberLiteral f => .ok (.literal (.numStr f) (some xsdDecimal))
  | StringLiteral s =>
    if pyStartsWith s "http://" then .ok (.uriRef s)
    else .ok (.literal (.plain s) none)
  | ListLiteral l =>
    match termDefault (ListLiteral l) with
    | .ok j => .ok (.literal (.jsonStr j) (some dtListTag))
    | .error e => .error e
  | Predicate name args =>
    if 0 < args.length then
      .error (.prologError "pl_literal_to_rdf: only constants are supported")
    else
      let name2 := kb name
      if pyStartsWith name2 "http://" then .ok (.uriRef name2)
      else .ok (.literal (.plain name) (some dtConstantTag))
  | Variable _ => .error (.prologError "pl_literal_to_rdf: unknown argument type")

/-- float(value): succeeds exactly on a numeric lexical form. -/
def floatOfLex : LitVal → Except PlErr PyObj
  | .numStr q => .ok (.term (NumberLiteral q))
  | _ => .error .valueError

/-- dateutil.parser.parse + timetuple + mktime: succeeds exactly on a
date-parseable lexical form; sub-second precision is dropped by timetuple. -/
def dateOfLex : LitVal → Except PlErr PyObj
  | .dtStr d => .ok (.term (NumberLiteral (mktime (timetuple d))))
  | _ => .error .valueError

/-- rdf_to_pl (pl2rdf.py lines 79-115): decode an rdflib node to a Python
value (a logic term in every branch except a DT_LIST payload that decodes to
a raw JSON object). -/
def rdfToPl : RDFNode → Except PlErr PyObj
  | .uriRef u => .ok (.term (StringLiteral u))
  | .literal v dt? =>
    match dt? with
    | some dt =>
      if dt = xsdDecimal then floatOfLex v
      else if dt = xsdFloat then floatOfLex v
      else if dt = xsdInteger then floatOfLex v
      else if dt = xsdDateTime then dateOfLex v
      else if dt = xsdDate then dateOfLex v
      else if dt = dtListTag then
        match v with
        | .jsonStr j => jsonToPy j
        | _ => .error .valueError
      else if dt = dtConstantTag then .ok (.term (Predicate v.lex []))
      else .error (.prologRuntimeError "sparql_query: unknown datatype")
    | none =>
      if litValueIsNone v then .ok (.term (ListLiteral []))
      else .ok (.term (StringLiteral v.lex))

/-! ## Context scoring (runtime.py, builtin_context_score, lines 129-194)

The stack argument is the result of read_context: `none` models a missing
context (Python None, falsy); a present ListLiteral is a plain object and
therefore truthy, so its element list enters the loop even when empty. -/

/-- The bound-mode loop (runtime.py lines 159-164): the first stack entry
equal to the candidate contributes points / i at its 1-based position i;
without a match the contribution is 0. -/
def scoreContribLoop (stack : List Term) (value : Term) (points : ℚ) (i : ℕ) : ℚ :=
  match stack with
  | [] => 0
  | v :: rest =>
    if v = value then points / (i : ℚ)
    else scoreContribLoop rest value points (i + 1)

/-- builtin_context_score, bound mode (runtime.py lines 154-169): add the
stack contribution to the incoming score, fail (none) when the result is
below min_score, otherwise succeed binding the score variable. -/
def contextScoreBound (stack : Option (List Term)) (value : Term)
    (points scoreIn minScore : ℚ) : Option ℚ :=
  let score := scoreIn +
    (match stack with
     | some l => scoreContribLoop l value points 1
     | none => 0)
  if score < minScore then none else some score

/-- The unbound-mode loop (runtime.py lines 178-186): every stack position
whose score reaches min_score yields one (value, score) solution, in stack
order. -/
def contextScoreUnboundLoop (l : List Term) (points score minScore : ℚ) (i : ℕ) :
    List (Term × ℚ) :=
  match l with
  | [] => []
  | v :: rest =>
    let rest' := contextScoreUnboundLoop rest points score minScore (i + 1)
    if minScore ≤ score + points / (i : ℚ) then
      (v, score + points / (i : ℚ)) :: rest'
    else rest'

/-- builtin_context_score, unbound mode (runtime.py lines 174-194): enumerate
the stack solutions; with no stored stack, one solution binding an empty
sequence when the incoming score meets the minimum.  Each solution is the
binding pair (candidate value, score output). -/
def contextScoreUnbound (stack : Option (List Term)) (points score minScore : ℚ) :
    List (Term × ℚ) :=
  match stack with
  | some l => contextScoreUnboundLoop l points score minScore 1
  | none =>
    if minScore ≤ score then [(ListLiteral [], score)] else []

/-! ## Action buffer (runtime.py lines 733-777) -/

/-- One committed action record: the queued sub-actions plus the score given
by end_action. -/
structure ActionRec where
  actions : List (List Term)
  score : ℚ
deriving DecidableEq

/-- AIPrologRuntime.get_actions (runtime.py lines 750-772): with
highscore_only (the default), determine the highest score (starting from 0)
and filter out any lower-scoring record. -/
def getActions (buf : List ActionRec) (highscoreOnly : Bool) : List ActionRec :=
  if !highscoreOnly then buf
  else
    let highscore := buf.foldl (fun h ab => if h < ab.score then ab.score else h) 0
    buf.filter (fun ab => !(ab.score < highscore))

/-- AIPrologRuntime.end_action (runtime.py lines 774-776): append one closed
record to the committed buffer. -/
def endAction (buf : List ActionRec) (actions : List (List Term)) (score : ℚ) :
    List ActionRec :=
  buf ++ [⟨actions, score⟩]

/-! ## Context store push (runtime.py lines 808-848)

One (user, key) cell of the context graph is modelled by the stored object
node, if any; write_context replaces the cell (remove + addN). -/

/-- Python truthiness of a read_context result: logic terms are plain objects
(truthy); raw values follow Python semantics. -/
def PyObj.truthy : PyObj → Bool
  | .num q => q ≠ 0
  | .str s => s ≠ ""
  | .list l => !l.isEmpty
  | .term _ => true

/-- read_context on one (user, key) cell: decode the stored node, if any. -/
def readCell (cell : Option RDFNode) : Except PlErr (Option PyObj) :=
  match cell with
  | none => .ok none
  | some nd =>
    match rdfToPl nd with
    | .ok v => .ok (some v)
    | .error e => .error e

def maxContextLen : ℕ := 6

/-- The current sequence seen by push_context (runtime.py lines 836-841): the
decoded cell when it is a truthy list, a fresh empty one when the read is
falsy; accessing .l on a truthy non-list raises AttributeError. -/
def pushReadList (cell : Option RDFNode) : Except PlErr (List Term) :=
  match readCell cell with
  | .error e => .error e
  | .ok none => .ok []
  | .ok (some o) =>
    if o.truthy then
      match o with
      | .term (ListLiteral l) => .ok l
      | _ => .error .attributeError
    else .ok []

/-- AIPrologRuntime.push_context (runtime.py lines 834-848): read the current
sequence, prepend the value, truncate to the first MAX_CONTEXT_LEN entries,
and write the encoded list back (write_context, lines 822-831). -/
def pushContext (kb : String → String) (cell : Option RDFNode) (value : Term) :
    Except PlErr RDFNode :=
  match pushReadList cell with
  | .error e => .error e
  | .ok l => plLiteralToRdf kb (ListLiteral ((value :: l).take maxContextLen))

/-- A sequence of pushes against one cell, each returning the new cell. -/
def pushSeq (kb : String → String) (cell : Option RDFNode) : List Term →
    Except PlErr (Option RDFNode)
  | [] => .ok cell
  | v :: vs =>
    match pushContext kb cell v with
    | .ok nd => pushSeq kb (some nd) vs
    | .error e => .error e

/-! ## Query algebra builder (runtime.py, _rdf_exec, lines 303-518) -/

/-- A resolved triple-pattern position: an RDF node or a query variable
(rdflib.term.Variable, identified by name). -/
inductive RDFTerm where
  | node (n : RDFNode)
  | var (name : String)
deriving DecidableEq

/-- Filter expressions: the CompValue nodes built by
prolog_to_filter_expression (pl2rdf.py lines 158-213).  `vars` models the
_vars set, as the variable-map contents at construction time. -/
inductive FilterExpr where
  | relational (op : String) (expr other : FilterExpr) (vars : List String)
  | cond (name : String) (expr : FilterExpr) (other : List FilterExpr) (vars : List String)
  | builtinLang (arg : FilterExpr) (vars : List String)
  | trueFilter (vars : List String)
  | leaf (t : RDFTerm)

/-- Query algebra nodes (CompValue trees built in _rdf_exec, lines 451-464). -/
inductive Algebra where
  | BGP (triples : List (RDFTerm × RDFTerm × RDFTerm)) (vars : List String)
  | LeftJoin (p1 p2 : Algebra) (expr : FilterExpr) (vars : List String)
  | Filter (p : Algebra) (expr : FilterExpr) (vars : List String)
  | Slice (start length : ℤ) (p : Algebra) (vars : List String)
  | Distinct (p : Algebra) (vars : List String)

/-- Modelled from the spec: zamiaprolog's prolog_eval — variable lookup in
the environment; non-variables evaluate to themselves; an unbound variable
evaluates to none (Python None). -/
def prologEval (env : String → Option Term) : Term → Option Term
  | Variable n => env n
  | t => some t

/-- Modelled from the spec: zamiaprolog's prolog_get_int — typed argument
extraction of an integer. -/
def prologGetInt (env : String → Option Term) (t : Term) : Except PlErr ℤ :=
  match prologEval env t with
  | some (NumberLiteral q) => .ok (q.num / (q.den : ℤ))
  | _ => .error (.prologRuntimeError "prolog_get_int: number expected")

/-- The variable binding map (string → interned rdflib Variable), modelled by
its key list in first-insertion order. -/
def vmInsert (n : String) (vm : List String) : List String :=
  if n ∈ vm then vm else vm ++ [n]

/-- pl_to_rdf (pl2rdf.py lines 144-156): evaluate the term; an unbound
variable resolves to the interned query variable of its name; anything else
is encoded as a literal. -/
def plToRdf (kb : String → String) (env : String → Option Term) (t : Term)
    (vm : List String) : Except PlErr (RDFTerm × List String) :=
  match prologEval env t with
  | some a =>
    match plLiteralToRdf kb a with
    | .ok nd => .ok (.node nd, vm)
    | .error e => .error e
  | none =>
    match t with
    | Variable n => .ok (.var n, vmInsert n vm)
    | _ => .error (.prologError "pl_literal_to_rdf: unknown argument type")

mutual

/-- _prolog_relational_expression (pl2rdf.py lines 158-170): exactly two
operands, each lowered recursively; _vars is the variable map at
construction. -/
def prologRelationalExpression (kb : String → String) (env : String → Option Term)
    (op : String) (args : List Term) (vm : List String) :
    Except PlErr (FilterExpr × List String) :=
  match args with
  | [a1, a2] =>
    match prologToFilterExpression kb env a1 vm with
    | .error e => .error e
    | .ok (e1, vm1) =>
      match prologToFilterExpression kb env a2 vm1 with
      | .error e => .error e
      | .ok (e2, vm2) => .ok (.relational op e1 e2 vm2, vm2)
  | _ => .error (.prologError "_prolog_relational_expression: 2 args expected.")

/-- _prolog_conditional_expression (pl2rdf.py lines 172-180): exactly two
operands; the second is stored as a one-element list (CompValue `other`). -/
def prologConditionalExpression (kb : String → String) (env : String → Option Term)
    (name : String) (args : List Term) (vm : List String) :
    Except PlErr (FilterExpr × List String) :=
  match args with
  | [a1, a2] =>
    match prologToFilterExpression kb env a1 vm with
    | .error e => .error e
    | .ok (e1, vm1) =>
      match prologToFilterExpression kb env a2 vm1 with
      | .error e => .error e
      | .ok (e2, vm2) => .ok (.cond name e1 [e2] vm2, vm2)
  | _ => .error (.prologError "_prolog_conditional_expression: 2 args expected.")

/-- prolog_to_filter_expression (pl2rdf.py lines 182-213): dispatch on the
operator name; anything outside the fixed set falls through to pl_to_rdf. -/
def prologToFilterExpression (kb : String → String) (env : String → Option Term)
    (e : Term) (vm : List String) : Except PlErr (FilterExpr × List String) :=
  match e with
  | Predicate "=" args => prologRelationalExpression kb env "=" args vm
  | Predicate "\\=" args => prologRelationalExpression kb env "!=" args vm
  | Predicate "<" args => prologRelationalExpression kb env "<" args vm
  | Predicate ">" args => prologRelationalExpression kb env ">" args vm
  | Predicate "=<" args => prologRelationalExpression kb env "<=" args vm
  | Predicate ">=" args => prologRelationalExpression kb env ">=" args vm
  | Predicate "is" args => prologRelationalExpression kb env "is" args vm
  | Predicate "and" args =>
    prologConditionalExpression kb env "ConditionalAndExpression" args vm
  | Predicate "or" args =>
    prologConditionalExpression kb env "ConditionalOrExpression" args vm
  | Predicate "lang" args =>
    match args with
    | [a] =>
      match prologToFilterExpression kb env a vm with
      | .error e => .error e
      | .ok (e1, vm1) => .ok (.builtinLang e1 vm1, vm1)
    | _ => .error (.prologError "lang filter expression: one argument expected.")
  | t =>
    match plToRdf kb env t vm with
    | .error e => .error e
    | .ok (r, vm1) => .ok (.leaf r, vm1)

end

/-- The and-tree fold of the filter directive (runtime.py lines 387-389):
transform multiple arguments into an explicit and-tree, folding from the
left. -/
def filterAndFold : List Term → Option Term
  | [] => none
  | e1 :: rest => some (rest.foldl (fun acc a => Predicate "and" [acc, a]) e1)

/-- The accumulators threaded by _rdf_exec's argument scan (runtime.py lines
344-352). -/
structure ScanState where
  distinct : Bool
  triples : List (RDFTerm × RDFTerm × RDFTerm)
  optionalTriples : List (RDFTerm × RDFTerm × RDFTerm)
  filters : List FilterExpr
  limit : ℤ
  offset : ℤ
  varMap : List String

def initScanState : ScanState := ⟨false, [], [], [], 0, 0, []⟩

/-- The argument scan of _rdf_exec (runtime.py lines 354-439): one
left-to-right pass classifying each position; directives are recognized by
predicate name, anything else consumes three positions as a required
triple. -/
def rdfScan (kb : String → String) (env : String → Option Term) :
    List Term → ScanState → Except PlErr ScanState
  | [], st => .ok st
  | arg :: rest, st =>
    match arg with
    | Predicate "optional" sargs =>
      match sargs with
      | [s, p, o] =>
        match plToRdf kb env s st.varMap with
        | .error e => .error e
        | .ok (rs, vm1) =>
          match plToRdf kb env p vm1 with
          | .error e => .error e
          | .ok (rp, vm2) =>
            match plToRdf kb env o vm2 with
            | .error e => .error e
            | .ok (ro, vm3) =>
              rdfScan kb env rest
                { st with optionalTriples := st.optionalTriples ++ [(rs, rp, ro)],
                          varMap := vm3 }
      | _ => .error (.prologRuntimeError "rdf: optional: triple arg expected")
    | Predicate "filter" sargs =>
      match filterAndFold sargs with
      | none => .error .indexError
      | some plExpr =>
        match prologToFilterExpression kb env plExpr st.varMap with
        | .error e => .error e
        | .ok (f, vm1) =>
          rdfScan kb env rest
            { st with filters := st.filters ++ [f], varMap := vm1 }
    | Predicate "distinct" sargs =>
      match sargs with
      | [] => rdfScan kb env rest { st with distinct := true }
      | _ => .error (.prologRuntimeError "rdf: distinct: unexpected arguments.")
    | Predicate "limit" sargs =>
      match sargs with
      | [n] =>
        match prologGetInt env n with
        | .error e => .error e
        | .ok v => rdfScan kb env rest { st with limit := v }
      | _ => .error (.prologRuntimeError "rdf: limit: one argument expected.")
    | Predicate "offset" sargs =>
      match sargs with
      | [n] =>
        match prologGetInt env n with
        | .error e => .error e
        | .ok v => rdfScan kb env rest { st with offset := v }
      | _ => .error (.prologRuntimeError "rdf: offset: one argument expected.")
    | _ =>
      match rest with
      | p :: o :: rest2 =>
        match plToRdf kb env arg st.varMap with
        | .error e => .error e
        | .ok (rs, vm1) =>
          match plToRdf kb env p vm1 with
          | .error e => .error e
          | .ok (rp, vm2) =>
            match plToRdf kb env o vm2 with
            | .error e => .error e
            | .ok (ro, vm3) =>
              rdfScan kb env rest2
                { st with triples := st.triples ++ [(rs, rp, ro)], varMap := vm3 }
      | _ => .error (.prologRuntimeError "rdf: not enough arguments for triple")

/-- The algebra assembly of _rdf_exec (runtime.py lines 445-464): require at
least one non-optional triple, build the BGP, left-fold optional triples as
LeftJoin layers (TrueFilter guard), left-fold filters as Filter layers, wrap
with Slice when limit > 0, wrap with Distinct when the flag is set.  Every
layer carries the full variable set of the scan. -/
def rdfBuildFromState (st : ScanState) : Except PlErr Algebra :=
  if st.triples = [] then
    .error (.prologRuntimeError "rdf: at least one non-optional triple expected")
  else
    let varSet := st.varMap
    let p0 := Algebra.BGP st.triples varSet
    let p1 := st.optionalTriples.foldl
      (fun p t => Algebra.LeftJoin p (Algebra.BGP [t] varSet) (.trueFilter []) varSet) p0
    let p2 := st.filters.foldl (fun p f => Algebra.Filter p f varSet) p1
    let p3 := if 0 < st.limit then Algebra.Slice st.offset st.limit p2 varSet else p2
    .ok (if st.distinct then Algebra.Distinct p3 varSet else p3)

/-- The pattern-construction phase of _rdf_exec: scan the arguments, then
assemble the algebra tree.  The query is sent to the store
(pe.kb.query_algebra, line 468) only after this succeeds. -/
def rdfBuildAlgebra (kb : String → String) (env : String → Option Term)
    (args : List Term) : Except PlErr Algebra :=
  match rdfScan kb env args initScanState with
  | .ok st => rdfBuildFromState st
  | .error e => .error e

/-- Does an algebra tree contain a Slice layer anywhere? -/
def Algebra.hasSlice : Algebra → Bool
  | .BGP _ _ => false
  | .LeftJoin p1 p2 _ _ => p1.hasSlice || p2.hasSlice
  | .Filter p _ _ => p.hasSlice
  | .Slice _ _ _ _ => true
  | .Distinct p _ => p.hasSlice

/-! ## Result consumption, tabular mode (runtime.py lines 470-518) -/

/-- One solution row: the bound variables (binding.labels) with their nodes. -/
def decodeRow (row : List (String × RDFNode)) : Except PlErr (List (String × PyObj)) :=
  match row with
  | [] => .ok []
  | (v, nd) :: rest =>
    match rdfToPl nd, decodeRow rest with
    | .ok value, .ok rest' => .ok ((v, value) :: rest')
    | .error e, _ => .error e
    | _, .error e => .error e

def decodeRows (rows : List (List (String × RDFNode))) :
    Except PlErr (List (List (String × PyObj))) :=
  match rows with
  | [] => .ok []
  | r :: rest =>
    match decodeRow r, decodeRows rest with
    | .ok r', .ok rest' => .ok (r' :: rest')
    | .error e, _ => .error e
    | _, .error e => .error e

/-- What _rdf_exec returns to the resolution engine: False (no match) or a
list of binding rows. -/
inductive RdfRet where
  | retFalse
  | rows (l : List (List (String × PyObj)))
deriving DecidableEq

/-- Python truthiness of the returned value (False is falsy; a list is truthy
iff non-empty). -/
def RdfRet.truthy : RdfRet → Bool
  | .retFalse => false
  | .rows l => !l.isEmpty

/-- The result consumption of _rdf_exec in tabular mode (generate_lists
False; runtime.py lines 470-518): an empty solution sequence returns False;
otherwise each solution becomes one binding row; the success-sentinel branch
(lines 513-514) appends one empty row when the row list is empty while the
raw result is not. -/
def rdfConsumeTabular (result : List (List (String × RDFNode))) :
    Except PlErr RdfRet :=
  if result.length = 0 then .ok .retFalse
  else
    match decodeRows result with
    | .error e => .error e
    | .ok resBindings =>
      let resBindings :=
        if resBindings.length = 0 ∧ 0 < result.length then resBindings ++ [[]]
        else resBindings
      .ok (.rows resBindings)

/-! ## Encodability predicates (which terms the codec accepts) -/

mutual

/-- Terms the JSON encoder accepts: numbers, strings, constants, and lists of
such (PrologJSONEncoder.default raises TypeError on anything else). -/
def Term.jsonEncodable : Term → Bool
  | NumberLiteral _ => true
  | StringLiteral _ => true
  | ListLiteral l => Term.jsonEncodableList l
  | Predicate _ args => args.isEmpty
  | Variable _ => false

def Term.jsonEncodableList : List Term → Bool
  | [] => true
  | t :: ts => Term.jsonEncodable t && Term.jsonEncodableList ts

end

/-- Terms whose encode-then-decode reproduces them exactly: numbers,
non-empty strings (an empty string encodes to an untyped literal with empty
value, which decodes to an empty List), lists of JSON-encodable elements,
and constants whose alias-resolved name is not URI-shaped (a URI-shaped
constant encodes to a URIRef, which decodes to a string). -/
def roundTrippable (kb : String → String) : Term → Bool
  | NumberLiteral _ => true
  | StringLiteral s => s != ""
  | ListLiteral l => Term.jsonEncodableList l
  | Predicate name args => args.isEmpty && !pyStartsWith (kb name) "http://"
  | Variable _ => false

/-- The JSON object encoding of a constant, as produced by the encoder. -/
def constObj (n : String) : Json :=
  .obj [("pt", .str "Constant"), ("name", .str n)]

/-! # Theorems -/

mutual

/-- Decoding inverts the JSON encoding of a term, whenever encoding
succeeds (no alias resolution or URI detection happens inside the JSON
codec, so this holds for every encodable term). -/
theorem termDefault_roundtrip : ∀ (t : Term) (j : Json), termDefault t = .ok j →
    jsonToPy j = .ok (.term t)
  | NumberLiteral f, j, h => by
    simp only [termDefault] at h
    cases h
    rfl
  | StringLiteral s, j, h => by
    simp only [termDefault] at h
    cases h
    rfl
  | ListLiteral l, j, h => by
    simp only [termDefault] at h
    cases hl : termListToJson l with
    | error e => simp [hl] at h
    | ok js =>
      simp only [hl] at h
      cases h
      have ih := termListToJson_roundtrip l js hl
      simp only [jsonToPy, jsonFieldsToPy, jsonListToPy, ih.1]
      simp [prologFromJson, lookupField, List.find?, ih.2]
  | Predicate name [], j, h => by
    simp only [termDefault] at h
    cases h
    rfl
  | Predicate name (a :: as), j, h => by
    simp only [termDefault] at h
    exact Except.noConfusion h
  | Variable n, j, h => by
    simp only [termDefault] at h
    exact Except.noConfusion h

theorem termListToJson_roundtrip : ∀ (l : List Term) (js : List Json),
    termListToJson l = .ok js →
    jsonListToPy js = .ok (l.map PyObj.term) ∧
      asTerms (l.map PyObj.term) = some l
  | [], js, h => by
    simp only [termListToJson] at h
    cases h
    exact ⟨rfl, rfl⟩
  | t :: ts, js, h => by
    simp only [termListToJson] at h
    cases ht : termDefault t with
    | error e => simp [ht] at h
    | ok j =>
      cases hts : termListToJson ts with
      | error e => simp [ht, hts] at h
      | ok js' =>
        simp only [ht, hts] at h
        cases h
        have ih1 := termDefault_roundtrip t j ht
        have ih2 := termListToJson_roundtrip ts js' hts
        constructor
        · simp only [jsonListToPy, ih1, ih2.1, List.map]
        · simp only [List.map, asTerms, ih2.2]

end

mutual

theorem termDefault_ok_of_encodable : ∀ t : Term, Term.jsonEncodable t = true →
    ∃ j, termDefault t = .ok j
  | NumberLiteral f, _ => ⟨_, rfl⟩
  | StringLiteral s, _ => ⟨_, rfl⟩
  | ListLiteral l, h => by
    simp only [Term.jsonEncodable] at h
    obtain ⟨js, hjs⟩ := termListToJson_ok_of_encodable l h
    exact ⟨.obj [("pt", .str "ListLiteral"), ("l", .arr js)], by simp [termDefault, hjs]⟩
  | Predicate name [], _ => ⟨_, rfl⟩
  | Predicate name (a :: as), h => by
    simp [Term.jsonEncodable] at h
  | Variable n, h => by
    simp [Term.jsonEncodable] at h

theorem termListToJson_ok_of_encodable : ∀ l : List Term,
    Term.jsonEncodableList l = true → ∃ js, termListToJson l = .ok js
  | [], _ => ⟨[], rfl⟩
  | t :: ts, h => by
    simp only [Term.jsonEncodableList, Bool.and_eq_true] at h
    obtain ⟨j, hj⟩ := termDefault_ok_of_encodable t h.1
    obtain ⟨js, hjs⟩ := termListToJson_ok_of_encodable ts h.2
    exact ⟨j :: js, by simp [termListToJson, hj, hjs]⟩

end

/-- C1 (amended): for every term of variant Number, non-empty String, List
(of JSON-encodable elements), or Constant accepted by the encoder whose
alias-resolved name is not URI-shaped, decoding the literal produced by
encode yields the original term variant and value exactly (an empty String
decodes to an empty List, a URI-shaped Constant to a String); decoding a
date/time literal yields the whole-second epoch Number of its parsed
calendar time, independent of the sub-second part. -/
theorem codec_roundtrip :
    (∀ (kb : String → String) (t : Term), roundTrippable kb t = true →
      (plLiteralToRdf kb t).bind rdfToPl = .ok (.term t))
    ∧ (∀ d : DateTimeV,
        rdfToPl (.literal (.dtStr d) (some xsdDateTime)) =
          .ok (.term (NumberLiteral ((mktime (timetuple d) : ℤ) : ℚ)))
        ∧ rdfToPl (.literal (.dtStr d) (some xsdDateTime)) =
            rdfToPl (.literal (.dtStr { d with micro := 0 }) (some xsdDateTime))) := by
  constructor
  · intro kb t ht
    cases t with
    | NumberLiteral f =>
      simp [plLiteralToRdf, Except.bind, rdfToPl, floatOfLex, xsdDecimal]
    | StringLiteral s =>
      simp only [roundTrippable, bne_iff_ne, ne_eq] at ht
      by_cases hs : pyStartsWith s "http://"
      · simp [plLiteralToRdf, hs, Except.bind, rdfToPl]
      · simp [plLiteralToRdf, hs, Except.bind, rdfToPl, litValueIsNone,
          LitVal.lex, ht]
    | ListLiteral l =>
      simp only [roundTrippable] at ht
      obtain ⟨js, hjs⟩ := termListToJson_ok_of_encodable l ht
      have hobj : termDefault (ListLiteral l) =
          .ok (.obj [("pt", .str "ListLiteral"), ("l", .arr js)]) := by
        simp [termDefault, hjs]
      have hdec := termDefault_roundtrip _ _ hobj
      simp [plLiteralToRdf, hobj, Except.bind, rdfToPl, dtListTag, xsdDecimal,
        xsdFloat, xsdInteger, xsdDateTime, xsdDate, hdec]
    | Predicate name args =>
      simp only [roundTrippable, Bool.and_eq_true, List.isEmpty_iff,
        Bool.not_eq_true'] at ht
      obtain ⟨hargs, hhttp⟩ := ht
      subst hargs
      simp [plLiteralToRdf, hhttp, Except.bind, rdfToPl, dtConstantTag,
        xsdDecimal, xsdFloat, xsdInteger, xsdDateTime, xsdDate, dtListTag,
        LitVal.lex]
    | Variable n => simp [roundTrippable] at ht
  · intro d
    constructor
    · simp [rdfToPl, dateOfLex, xsdDateTime, xsdDecimal, xsdFloat, xsdInteger]
    · rfl

/-- C1 counterexample: the constant Predicate "http://x" [] is accepted by
the encoder (it encodes to a URIRef) but decodes to a StringLiteral, and the
empty StringLiteral "" is accepted (it encodes to an untyped literal with
empty value) but decodes to an empty ListLiteral — in both cases the variant
is not reproduced. -/
theorem codec_roundtrip_uri_constant :
    ((plLiteralToRdf (fun n => n) (Predicate "http://x" [])).bind rdfToPl =
        .ok (.term (StringLiteral "http://x"))
      ∧ PyObj.term (StringLiteral "http://x") ≠
        PyObj.term (Predicate "http://x" []))
    ∧ ((plLiteralToRdf (fun n => n) (StringLiteral "")).bind rdfToPl =
        .ok (.term (ListLiteral []))
      ∧ PyObj.term (ListLiteral []) ≠ PyObj.term (StringLiteral "")) :=
  ⟨⟨rfl, by simp⟩, ⟨rfl, by simp⟩⟩

/-- Witness for C1: the four round-trip examples of the spec. -/
theorem codec_roundtrip_witness :
    (plLiteralToRdf (fun n => n) (NumberLiteral (3.5 : ℚ))).bind rdfToPl =
      .ok (.term (NumberLiteral (3.5 : ℚ)))
    ∧ (plLiteralToRdf (fun n => n) (StringLiteral "hello")).bind rdfToPl =
      .ok (.term (StringLiteral "hello"))
    ∧ (plLiteralToRdf (fun n => n) (Predicate "foo" [])).bind rdfToPl =
      .ok (.term (Predicate "foo" []))
    ∧ (plLiteralToRdf (fun n => n)
        (ListLiteral [NumberLiteral 1, StringLiteral "a"])).bind rdfToPl =
      .ok (.term (ListLiteral [NumberLiteral 1, StringLiteral "a"])) :=
  ⟨codec_roundtrip.1 (fun n => n) _ rfl, codec_roundtrip.1 (fun n => n) _ rfl,
   codec_roundtrip.1 (fun n => n) _ rfl, codec_roundtrip.1 (fun n => n) _ rfl⟩

/-- The bound-mode loop computes the harmonic contribution of the first
matching position: points / i at the candidate's 1-based position, 0 when it
is absent. -/
theorem scoreContribLoop_eq (v : Term) (p : ℚ) :
    ∀ (l : List Term) (i : ℕ),
      scoreContribLoop l v p i =
        if v ∈ l then p / ((i : ℚ) + (l.indexOf v : ℚ)) else 0 := by
  intro l
  induction l with
  | nil => intro i; simp [scoreContribLoop]
  | cons a rest ih =>
    intro i
    by_cases hav : a = v
    · subst hav
      simp [scoreContribLoop, List.indexOf_cons_self]
    · rw [scoreContribLoop, if_neg hav, ih (i + 1), List.indexOf_cons_ne _ hav]
      by_cases hm : v ∈ rest
      · have hmem : v ∈ a :: rest := List.mem_cons_of_mem a hm
        simp only [hm, if_true, hmem]
        congr 1
        push_cast
        ring
      · have hnmem : ¬ v ∈ a :: rest := by
          simp only [List.mem_cons, not_or]
          exact ⟨fun he => hav he.symm, hm⟩
        simp [hm, hnmem]

/-- C2: in bound mode, context_score adds points / i for the candidate's
1-based stack position (0 when absent), fails exactly when the sum is below
min_points, and otherwise binds score_in + contribution; for stack
[v1, v2, v3] with points 12 and min_points 0, scoring v2 accepts with 6. -/
theorem context_score_bound_correct :
    (∀ (stack : Option (List Term)) (v : Term) (p s m : ℚ),
      contextScoreBound stack v p s m =
        (let contrib : ℚ :=
          match stack with
          | none => 0
          | some l => if v ∈ l then p / ((l.indexOf v : ℚ) + 1) else 0
        if s + contrib < m then none else some (s + contrib)))
    ∧ contextScoreBound
        (some [Predicate "v1" [], Predicate "v2" [], Predicate "v3" []])
        (Predicate "v2" []) 12 0 0 = some 6 := by
  constructor
  · intro stack v p s m
    cases stack with
    | none => simp [contextScoreBound]
    | some l =>
      simp only [contextScoreBound, scoreContribLoop_eq v p l 1]
      have hc : (1 : ℚ) + (l.indexOf v : ℚ) = (l.indexOf v : ℚ) + 1 := add_comm _ _
      simp [hc]
  · have h12 : ("v1" : String) ≠ "v2" := by decide
    have h32 : ("v3" : String) ≠ "v2" := by decide
    norm_num [contextScoreBound, scoreContribLoop, h12, h32]

/-- The unbound-mode loop yields, in stack order, one (value, score) pair per
enumerated position meeting the minimum score. -/
theorem contextScoreUnboundLoop_eq (p s m : ℚ) :
    ∀ (l : List Term) (i : ℕ),
      contextScoreUnboundLoop l p s m i =
        (l.enumFrom i).filterMap (fun jv =>
          if m ≤ s + p / (jv.1 : ℚ) then some (jv.2, s + p / (jv.1 : ℚ))
          else none) := by
  intro l
  induction l with
  | nil => intro i; simp [contextScoreUnboundLoop]
  | cons a rest ih =>
    intro i
    simp only [contextScoreUnboundLoop, ih (i + 1), List.enumFrom,
      List.filterMap_cons]
    by_cases hc : m ≤ s + p / (i : ℚ)
    · simp [hc]
    · simp [hc]

/-- C3: in unbound mode, context_score yields, in stack order, one
(value, score_out) solution per 1-based position whose score meets
min_points; with no stored stack it yields one empty-sequence solution with
score_out = score_in exactly when that meets the minimum; for stack
[v1, v2, v3] with points 12 and min_points 0 it enumerates scores 12, 6, 4
in stack order. -/
theorem context_score_unbound_correct :
    (∀ (l : List Term) (p s m : ℚ),
      contextScoreUnbound (some l) p s m =
        (l.enumFrom 1).filterMap (fun jv =>
          if m ≤ s + p / (jv.1 : ℚ) then some (jv.2, s + p / (jv.1 : ℚ))
          else none))
    ∧ (∀ (p s m : ℚ),
        contextScoreUnbound none p s m =
          if m ≤ s then [(ListLiteral [], s)] else [])
    ∧ contextScoreUnbound
        (some [Predicate "v1" [], Predicate "v2" [], Predicate "v3" []]) 12 0 0 =
      [(Predicate "v1" [], 12), (Predicate "v2" [], 6), (Predicate "v3" [], 4)] := by
  refine ⟨fun l p s m => contextScoreUnboundLoop_eq p s m l 1, fun p s m => rfl, ?_⟩
  norm_num [contextScoreUnbound, contextScoreUnboundLoop]


/-- The highscore accumulation of get_actions is a fold of max over 0 and
the committed scores. -/
theorem foldl_if_max (buf : List ActionRec) :
    ∀ init : ℚ,
      buf.foldl (fun h ab => if h < ab.score then ab.score else h) init =
        (buf.map ActionRec.score).foldl max init := by
  induction buf with
  | nil => intro init; rfl
  | cons ab rest ih =>
    intro init
    simp only [List.foldl_cons, List.map_cons]
    rw [ih]
    congr 1
    rcases le_or_lt ab.score init with hle | hlt
    · rw [if_neg (not_lt.mpr hle), max_eq_left hle]
    · rw [if_pos hlt, max_eq_right hlt.le]

theorem le_foldl_max (l : List ℚ) : ∀ init : ℚ, init ≤ l.foldl max init := by
  induction l with
  | nil => intro init; exact le_refl _
  | cons a rest ih =>
    intro init
    exact le_trans (le_max_left _ _) (ih (max init a))

theorem mem_le_foldl_max (l : List ℚ) : ∀ init : ℚ, ∀ x ∈ l, x ≤ l.foldl max init := by
  induction l with
  | nil => intro init x hx; cases hx
  | cons a rest ih =>
    intro init x hx
    rcases List.mem_cons.mp hx with rfl | hx'
    · exact le_trans (le_max_right init x) (le_foldl_max rest (max init x))
    · exact ih (max init a) x hx'

/-- C4 (amended): get_actions in default mode returns exactly the committed
records whose score equals the maximum of 0 and all committed scores (ties
all included; empty buffer — or a buffer whose scores are all negative —
gives an empty result); for committed scores [3, 5, 5, 1] exactly the two
records scoring 5 are returned. -/
theorem get_actions_highest :
    (∀ buf : List ActionRec,
      getActions buf true =
        buf.filter (fun ab => ab.score = (buf.map ActionRec.score).foldl max 0))
    ∧ getActions [] true = []
    ∧ getActions [⟨[[NumberLiteral 1]], 3⟩, ⟨[[NumberLiteral 2]], 5⟩,
                  ⟨[[NumberLiteral 3]], 5⟩, ⟨[[NumberLiteral 4]], 1⟩] true =
        [⟨[[NumberLiteral 2]], 5⟩, ⟨[[NumberLiteral 3]], 5⟩] := by
  refine ⟨?_, rfl, ?_⟩
  · intro buf
    simp only [getActions, Bool.not_true, Bool.false_eq_true, if_false,
      foldl_if_max buf 0]
    apply List.filter_congr
    intro ab hab
    have hle : ab.score ≤ (buf.map ActionRec.score).foldl max 0 :=
      mem_le_foldl_max _ 0 _ (List.mem_map_of_mem ActionRec.score hab)
    have hiff : ¬ (ab.score < (buf.map ActionRec.score).foldl max 0) ↔
        ab.score = (buf.map ActionRec.score).foldl max 0 := by
      constructor
      · intro hnlt; exact le_antisymm hle (not_lt.mp hnlt)
      · intro he; rw [he]; exact lt_irrefl _
    have hlt := not_iff_comm.mp hiff
    simp only [← hlt, decide_not, Bool.not_not]
  · norm_num [getActions, List.filter]

/-- C4 counterexample: with one committed record scoring -1, the maximum
score among the buffer's records is -1 and the record scoring it should be
returned, but get_actions returns nothing (its highscore starts at 0). -/
theorem get_actions_negative_scores :
    getActions [⟨[], -1⟩] true = []
    ∧ ([⟨[], -1⟩] : List ActionRec).filter (fun ab => ab.score = -1) =
        [⟨[], -1⟩] := by
  constructor
  · norm_num [getActions, List.filter]
  · norm_num [List.filter]

/-- C5: the algebra built from a successful scan is layered bottom-up: a BGP
of the required triples, then one LeftJoin layer per optional triple (with a
TrueFilter guard), then one Filter layer per filter expression, then a Slice
layer with the scanned offset (defaulting to 0) and length = limit exactly
when limit > 0, then a Distinct layer exactly when the distinct directive
appeared; every layer carries the scan's full variable set. -/
theorem rdf_build_layers :
    ∀ (kb : String → String) (env : String → Option Term) (args : List Term)
      (st : ScanState),
      rdfScan kb env args initScanState = .ok st →
      st.triples ≠ [] →
      rdfBuildAlgebra kb env args =
        .ok (let base := Algebra.BGP st.triples st.varMap
             let oj := st.optionalTriples.foldl
               (fun p t => Algebra.LeftJoin p (.BGP [t] st.varMap)
                 (.trueFilter []) st.varMap) base
             let fl := st.filters.foldl
               (fun p f => Algebra.Filter p f st.varMap) oj
             let sl := if 0 < st.limit then
                 Algebra.Slice st.offset st.limit fl st.varMap
               else fl
             if st.distinct then Algebra.Distinct sl st.varMap else sl) := by
  intro kb env args st h hne
  simp [rdfBuildAlgebra, h, rdfBuildFromState, hne]

/-- Witness for C5: the spec's example — one required triple with an unbound
object, filter x > 5, limit 2, offset 1 — builds BGP → Filter →
Slice(offset 1, length 2) with no Distinct layer. -/
theorem rdf_build_layers_witness :
    rdfBuildAlgebra (fun n => n) (fun _ => none)
      [Predicate "s" [], Predicate "p" [], Variable "X",
       Predicate "filter" [Predicate ">" [Variable "X", NumberLiteral 5]],
       Predicate "limit" [NumberLiteral 2], Predicate "offset" [NumberLiteral 1]] =
    .ok (Algebra.Slice 1 2
          (Algebra.Filter
            (Algebra.BGP
              [(.node (.literal (.plain "s") (some dtConstantTag)),
                .node (.literal (.plain "p") (some dtConstantTag)),
                .var "X")] ["X"])
            (.relational ">" (.leaf (.var "X"))
              (.leaf (.node (.literal (.numStr 5) (some xsdDecimal)))) ["X"])
            ["X"])
          ["X"]) := by
  have h := rdf_build_layers (fun n => n) (fun _ => none)
    [Predicate "s" [], Predicate "p" [], Variable "X",
     Predicate "filter" [Predicate ">" [Variable "X", NumberLiteral 5]],
     Predicate "limit" [NumberLiteral 2], Predicate "offset" [NumberLiteral 1]]
    ⟨false,
     [(.node (.literal (.plain "s") (some dtConstantTag)),
       .node (.literal (.plain "p") (some dtConstantTag)),
       .var "X")],
     [],
     [.relational ">" (.leaf (.var "X"))
       (.leaf (.node (.literal (.numStr 5) (some xsdDecimal)))) ["X"]],
     2, 1, ["X"]⟩
    rfl (by simp)
  simpa using h

/-- C6 counterexample: three filter arguments fold into a LEFT-associated
and-tree and(and(e1, e2), e3), which differs from the right-associated
and(e1, and(e2, e3)) the claim describes. -/
theorem filter_fold_counterexample :
    filterAndFold [Predicate "p" [], Predicate "q" [], Predicate "r" []] =
      some (Predicate "and" [Predicate "and" [Predicate "p" [], Predicate "q" []],
                             Predicate "r" []])
    ∧ Predicate "and" [Predicate "and" [Predicate "p" [], Predicate "q" []],
                       Predicate "r" []] ≠
      Predicate "and" [Predicate "p" [],
                       Predicate "and" [Predicate "q" [], Predicate "r" []]] :=
  ⟨rfl, by decide⟩

/-- C6 (amended): the filter directive's arguments are combined pairwise by a
LEFT fold into a left-associated and-expression — each further argument
becomes the right operand of a new outermost and — before lowering through
the filter expression builder, whose and/or forms accept exactly two
operands (any other arity fails). -/
theorem filter_fold_left_assoc :
    (∀ (e a : Term) (es : List Term),
      filterAndFold (e :: (es ++ [a])) =
        (filterAndFold (e :: es)).map (fun t => Predicate "and" [t, a]))
    ∧ (∀ (kb : String → String) (env : String → Option Term)
        (x y z : Term) (vm : List String),
        prologToFilterExpression kb env (Predicate "and" [x, y, z]) vm =
          .error (.prologError "_prolog_conditional_expression: 2 args expected."))
    ∧ (∀ (kb : String → String) (env : String → Option Term)
        (x : Term) (vm : List String),
        prologToFilterExpression kb env (Predicate "and" [x]) vm =
          .error (.prologError "_prolog_conditional_expression: 2 args expected.")) := by
  refine ⟨?_, ?_, ?_⟩
  · intro e a es
    simp [filterAndFold, List.foldl_append]
  · intro kb env x y z vm
    rfl
  · intro kb env x vm
    rfl

/-- C8: in tabular mode, one solution binding zero projected variables
yields one empty-binding row (truthy), and zero solutions yield False
(falsy); neither case is an error. -/
theorem rdf_tabular_sentinel :
    rdfConsumeTabular [[]] = .ok (.rows [[]])
    ∧ (RdfRet.rows [[]]).truthy = true
    ∧ rdfConsumeTabular [] = .ok .retFalse
    ∧ RdfRet.retFalse.truthy = false :=
  ⟨rfl, rfl, rfl, rfl⟩

/-- C9: when the left-to-right scan yields zero required triples, the builder
fails with the insufficient-pattern error; no algebra is produced, and the
store query (pe.kb.query_algebra, runtime.py line 468) runs only after a
successful build. -/
theorem rdf_insufficient_pattern :
    ∀ (kb : String → String) (env : String → Option Term) (args : List Term)
      (st : ScanState),
      rdfScan kb env args initScanState = .ok st → st.triples = [] →
      rdfBuildAlgebra kb env args =
        .error (.prologRuntimeError "rdf: at least one non-optional triple expected") := by
  intro kb env args st h ht
  simp [rdfBuildAlgebra, h, rdfBuildFromState, ht]

/-- Witness for C9: a lone distinct() directive scans successfully with zero
required triples and the builder fails. -/
theorem rdf_insufficient_pattern_witness :
    rdfBuildAlgebra (fun n => n) (fun _ => none) [Predicate "distinct" []] =
      .error (.prologRuntimeError "rdf: at least one non-optional triple expected") :=
  rdf_insufficient_pattern (fun n => n) (fun _ => none) [Predicate "distinct" []]
    ⟨true, [], [], [], 0, 0, []⟩ rfl rfl

theorem hasSlice_foldl_leftjoin (ts : List (RDFTerm × RDFTerm × RDFTerm))
    (vs : List String) :
    ∀ p : Algebra,
      (ts.foldl (fun p t => Algebra.LeftJoin p (.BGP [t] vs) (.trueFilter []) vs)
          p).hasSlice = p.hasSlice := by
  induction ts with
  | nil => intro p; rfl
  | cons t rest ih =>
    intro p
    rw [List.foldl_cons, ih]
    simp [Algebra.hasSlice]

theorem hasSlice_foldl_filter (fs : List FilterExpr) (vs : List String) :
    ∀ p : Algebra,
      (fs.foldl (fun p f => Algebra.Filter p f vs) p).hasSlice = p.hasSlice := by
  induction fs with
  | nil => intro p; rfl
  | cons f rest ih =>
    intro p
    rw [List.foldl_cons, ih]
    rfl

/-- C10: an offset directive whose argument list sets no positive limit is
silently ignored — the built algebra contains no Slice layer at all, and the
assembly does not depend on the scanned offset. -/
theorem rdf_offset_ignored_without_limit :
    ∀ (kb : String → String) (env : String → Option Term) (args : List Term)
      (st : ScanState) (q : ℚ),
      Predicate "offset" [NumberLiteral q] ∈ args →
      rdfScan kb env args initScanState = .ok st →
      st.limit = 0 →
      (∀ a : Algebra, rdfBuildAlgebra kb env args = .ok a → a.hasSlice = false)
      ∧ (∀ m : ℤ, rdfBuildFromState { st with offset := m } =
          rdfBuildFromState st) := by
  intro kb env args st q hmem hscan hlim
  constructor
  · intro a ha
    simp only [rdfBuildAlgebra, hscan] at ha
    simp only [rdfBuildFromState, hlim] at ha
    by_cases ht : st.triples = []
    · simp [ht] at ha
    · simp only [ht, if_false, lt_irrefl] at ha
      cases ha
      cases hd : st.distinct with
      | true =>
        simp only [hd, if_true, Algebra.hasSlice]
        rw [hasSlice_foldl_filter, hasSlice_foldl_leftjoin]
        rfl
      | false =>
        simp only [hd, Bool.false_eq_true, if_false]
        rw [hasSlice_foldl_filter, hasSlice_foldl_leftjoin]
        rfl
  · intro m
    simp [rdfBuildFromState, hlim]

/-- Witness for C10: a required triple plus offset(5) and no limit builds a
bare BGP with no Slice layer. -/
theorem rdf_offset_ignored_without_limit_witness :
    rdfBuildAlgebra (fun n => n) (fun _ => none)
      [Predicate "a" [], Predicate "b" [], Predicate "c" [],
       Predicate "offset" [NumberLiteral 5]] =
      .ok (Algebra.BGP
        [(.node (.literal (.plain "a") (some dtConstantTag)),
          .node (.literal (.plain "b") (some dtConstantTag)),
          .node (.literal (.plain "c") (some dtConstantTag)))] [])
    ∧ (Algebra.BGP
        [(.node (.literal (.plain "a") (some dtConstantTag)),
          .node (.literal (.plain "b") (some dtConstantTag)),
          .node (.literal (.plain "c") (some dtConstantTag)))] []).hasSlice =
      false := by
  refine ⟨rfl, ?_⟩
  exact (rdf_offset_ignored_without_limit (fun n => n) (fun _ => none)
    [Predicate "a" [], Predicate "b" [], Predicate "c" [],
     Predicate "offset" [NumberLiteral 5]]
    ⟨false,
     [(.node (.literal (.plain "a") (some dtConstantTag)),
       .node (.literal (.plain "b") (some dtConstantTag)),
       .node (.literal (.plain "c") (some dtConstantTag)))],
     [], [], 0, 5, []⟩ 5 (by simp) rfl rfl).1 _ rfl

/-- A successfully encoded ListLiteral decodes back to itself (the JSON list
encoding uses no alias resolution and no URI detection). -/
theorem plLiteralToRdf_list_roundtrip :
    ∀ (kb : String → String) (l : List Term) (nd : RDFNode),
      plLiteralToRdf kb (ListLiteral l) = .ok nd →
      rdfToPl nd = .ok (.term (ListLiteral l)) := by
  intro kb l nd h
  simp only [plLiteralToRdf] at h
  cases hd : termDefault (ListLiteral l) with
  | error e => simp [hd] at h
  | ok j =>
    simp only [hd] at h
    cases h
    have hj := termDefault_roundtrip _ _ hd
    simp [rdfToPl, dtListTag, xsdDecimal, xsdFloat, xsdInteger, xsdDateTime,
      xsdDate, hj]

/-- Reading the cell written by a successful push yields the stored list. -/
theorem pushReadList_of_list :
    ∀ (cell : RDFNode) (l : List Term),
      rdfToPl cell = .ok (.term (ListLiteral l)) →
      pushReadList (some cell) = .ok l := by
  intro cell l h
  simp [pushReadList, readCell, h, PyObj.truthy]

/-- One successful push stores the prepended sequence truncated to six. -/
theorem pushContext_step :
    ∀ (kb : String → String) (cell : Option RDFNode) (v : Term)
      (l0 : List Term) (nd : RDFNode),
      pushReadList cell = .ok l0 →
      pushContext kb cell v = .ok nd →
      rdfToPl nd = .ok (.term (ListLiteral ((v :: l0).take 6))) := by
  intro kb cell v l0 nd hr hp
  simp only [pushContext, hr, maxContextLen] at hp
  exact plLiteralToRdf_list_roundtrip kb _ nd hp

theorem take_append_take {α : Type} (a b : List α) :
    (a ++ b.take 6).take 6 = (a ++ b).take 6 := by
  rw [List.take_append_eq_append_take, List.take_append_eq_append_take,
    List.take_take]
  have : min (6 - a.length) 6 = 6 - a.length :=
    min_eq_left (Nat.sub_le 6 a.length)
  rw [this]

/-- Folding pushes over a list prepends the values and keeps the first six:
the bound-6 truncation at every step collapses to one final truncation. -/
theorem foldl_push_take {α : Type} (v : α) (vs : List α) :
    ∀ l0 : List α,
      (v :: vs).foldl (fun l w => (w :: l).take 6) l0 =
        ((v :: vs).reverse ++ l0).take 6 := by
  induction vs generalizing v with
  | nil => intro l0; rfl
  | cons w ws ih =>
    intro l0
    have step : (v :: w :: ws).foldl (fun l w => (w :: l).take 6) l0 =
        (w :: ws).foldl (fun l w => (w :: l).take 6) ((v :: l0).take 6) := rfl
    rw [step, ih w ((v :: l0).take 6), take_append_take]
    congr 1
    simp [List.reverse_cons, List.append_assoc]

/-- A successful non-empty push sequence stores the fold of all pushes. -/
theorem pushSeq_decode (kb : String → String) :
    ∀ (vs : List Term) (cell : Option RDFNode) (l0 : List Term) (nd : RDFNode),
      vs ≠ [] →
      pushReadList cell = .ok l0 →
      pushSeq kb cell vs = .ok (some nd) →
      rdfToPl nd = .ok (.term (ListLiteral
        (vs.foldl (fun l w => (w :: l).take 6) l0))) := by
  intro vs
  induction vs with
  | nil => intro cell l0 nd h; exact absurd rfl h
  | cons v vs' ih =>
    intro cell l0 nd _ hr hs
    simp only [pushSeq] at hs
    cases hp : pushContext kb cell v with
    | error e => simp [hp] at hs
    | ok nd1 =>
      simp only [hp] at hs
      have hdec1 := pushContext_step kb cell v l0 nd1 hr hp
      cases vs' with
      | nil =>
        simp only [pushSeq] at hs
        cases hs
        simpa using hdec1
      | cons w ws =>
        have hr1 := pushReadList_of_list nd1 _ hdec1
        have hrec := ih (some nd1) ((v :: l0).take 6) nd (by simp) hr1 hs
        simpa [List.foldl_cons] using hrec

/-- C7: a successful push stores exactly the prepended sequence truncated to
its first six entries — so every stored stack holds at most six entries —
and seven successful sequential pushes leave exactly the six most recent
values, most-recent-first. -/
theorem push_context_bound :
    (∀ (kb : String → String) (cell : Option RDFNode) (v : Term)
       (l0 : List Term) (nd : RDFNode),
       pushReadList cell = .ok l0 → pushContext kb cell v = .ok nd →
       rdfToPl nd = .ok (.term (ListLiteral ((v :: l0).take 6)))
       ∧ ((v :: l0).take 6).length ≤ 6)
    ∧ (∀ (kb : String → String) (cell : Option RDFNode)
       (v1 v2 v3 v4 v5 v6 v7 : Term) (l0 : List Term) (nd : RDFNode),
       pushReadList cell = .ok l0 →
       pushSeq kb cell [v1, v2, v3, v4, v5, v6, v7] = .ok (some nd) →
       rdfToPl nd = .ok (.term (ListLiteral [v7, v6, v5, v4, v3, v2]))) := by
  constructor
  · intro kb cell v l0 nd hr hp
    exact ⟨pushContext_step kb cell v l0 nd hr hp, List.length_take_le 6 _⟩
  · intro kb cell v1 v2 v3 v4 v5 v6 v7 l0 nd hr hs
    have hdec := pushSeq_decode kb [v1, v2, v3, v4, v5, v6, v7] cell l0 nd
      (by simp) hr hs
    rw [foldl_push_take] at hdec
    have hl : (([v1, v2, v3, v4, v5, v6, v7].reverse ++ l0).take 6) =
        [v7, v6, v5, v4, v3, v2] := by
      simp [List.take_append_eq_append_take]
    rwa [hl] at hdec

/-- Witness for C7: seven pushes of constants c1..c7 into an empty cell leave
the stored cell decoding to [c7, c6, c5, c4, c3, c2]. -/
theorem push_context_bound_witness :
    rdfToPl (.literal (.jsonStr (.obj [("pt", .str "ListLiteral"),
        ("l", .arr [constObj "c7", constObj "c6", constObj "c5",
                    constObj "c4", constObj "c3", constObj "c2"])]))
      (some dtListTag)) =
    .ok (.term (ListLiteral
      [Predicate "c7" [], Predicate "c6" [], Predicate "c5" [],
       Predicate "c4" [], Predicate "c3" [], Predicate "c2" []])) :=
  push_context_bound.2 (fun n => n) none
    (Predicate "c1" []) (Predicate "c2" []) (Predicate "c3" [])
    (Predicate "c4" []) (Predicate "c5" []) (Predicate "c6" [])
    (Predicate "c7" []) [] _ rfl rfl

end ZamiaAI
